import Mathlib

/-!
Verification development for the GoodreadsAPI metadata-source plugin
(`src/__init__.py`, with the variant accessors of `src/test_wrapper.py`
where noted).  Python strings are modelled as `List Char`; a Python
function that can raise an uncaught exception is modelled with
`Option`/`Except`, where `none` / `.error` stands for the raised
exception.
-/

/-! ## ISBN codec (`_ISBNConvert`) -/

/-- Python `\w` for the ASCII strings involved here: letters, digits, underscore. -/
def isWordChar (c : Char) : Bool := c.isAlphanum || c == '_'

/-- Second substitution of `_isbn_strip`: any non-digit (`\D`) becomes `'X'`. -/
def stripMap (c : Char) : Char := if c.isDigit then c else 'X'

/-- `_ISBNConvert._isbn_strip`: `re.sub("\W", "", isbn)` followed by
`re.sub("\D", "X", short)`. -/
def _isbn_strip (cs : List Char) : List Char := (cs.filter isWordChar).map stripMap

/-- Python `int(char)` on a single character: succeeds exactly on a decimal digit
(`none` models the raised `ValueError`). -/
def pyIntDigit (c : Char) : Option Nat :=
  if c.isDigit then some (c.toNat - 48) else none

/-- Digit handling inside `isI10`'s loop: `'X'`/`'x'` is replaced by `"10"`
before the `int` conversion. -/
def pyInt10 (c : Char) : Option Nat :=
  if c == 'X' || c == 'x' then some 10 else pyIntDigit c

/-- The summation loop of `isI10`: `sum_isbn += digit * int(char)` with `digit`
starting at `w` and decreasing by one per character. -/
def sumI10 : List Char → Int → Option Int
  | [], _ => some 0
  | c :: cs, w =>
    match pyInt10 c with
    | none => none
    | some d =>
      match sumI10 cs (w - 1) with
      | none => none
      | some s => some (w * d + s)

/-- The summation loop of `checkI10`: same weights as `isI10`'s loop but with a
plain `int(char)` (no `'X'` handling). -/
def sumCheck10 : List Char → Int → Option Int
  | [], _ => some 0
  | c :: cs, w =>
    match pyIntDigit c with
    | none => none
    | some d =>
      match sumCheck10 cs (w - 1) with
      | none => none
      | some s => some (w * d + s)

/-- The summation loop shared by `_checkI13` and `isI13`: weight 1 on even
`count` positions and 3 on odd ones. -/
def sumI13 : List Char → Nat → Option Nat
  | [], _ => some 0
  | c :: cs, k =>
    match pyIntDigit c with
    | none => none
    | some d =>
      match sumI13 cs (k + 1) with
      | none => none
      | some s => some ((if k % 2 = 0 then d else 3 * d) + s)

/-- A single decimal digit rendered the way Python `str` renders it
(only ever applied to values `0`–`9` below). -/
def digitChar (n : Nat) : Char := Char.ofNat (48 + n)

/-- `_ISBNConvert.checkI10`.  The check value `11 - sum % 11` always lies in
`1..11`, so the final branch renders a single digit. -/
def checkI10 (stem : List Char) : Option (List Char) :=
  match sumCheck10 stem 10 with
  | none => none
  | some s =>
    let check : Int := 11 - s % 11
    some (if check = 10 then ['X'] else if check = 11 then ['0'] else [digitChar check.toNat])

/-- `_ISBNConvert._checkI13`.  The check value `10 - sum % 10` always lies in
`1..10`, so the final branch renders a single digit. -/
def _checkI13 (stem : List Char) : Option (List Char) :=
  match sumI13 stem 0 with
  | none => none
  | some s =>
    let check : Nat := 10 - s % 10
    some (if check = 10 then ['0'] else [digitChar check])

/-- `_ISBNConvert.isI10`. -/
def isI10 (isbn : List Char) : Option Bool :=
  let short := _isbn_strip isbn
  if short.length ≠ 10 then some false
  else
    match sumI10 short 10 with
    | none => none
    | some s => some (s % 11 == 0)

/-- `_ISBNConvert.isI13`. -/
def isI13 (isbn : List Char) : Option Bool :=
  let short := _isbn_strip isbn
  if short.length ≠ 13 then some false
  else
    match sumI13 short 0 with
    | none => none
    | some s => some (s % 10 == 0)

/-- `_ISBNConvert.isValid`. -/
def isValid (isbn : List Char) : Option Bool :=
  let short := _isbn_strip isbn
  if short.length = 10 then isI10 short
  else if short.length = 13 then isI13 short
  else some false

/-- The possible Python results of `_ISBNConvert._check`: a string, or the
literal `False` it returns on a stem of unexpected length. -/
inductive StrOrFalse where
  | str (s : List Char)
  | fls
deriving DecidableEq

/-- `_ISBNConvert._check`. -/
def _check (stem : List Char) : Option StrOrFalse :=
  let short := _isbn_strip stem
  if short.length = 9 then (checkI10 short).map StrOrFalse.str
  else if short.length = 12 then (_checkI13 short).map StrOrFalse.str
  else some StrOrFalse.fls

/-- `_ISBNConvert.convert`.  `none` models a raised exception: the explicit
`Invalid ISBN` / `ISBN not convertible` raises, an exception escaping the
check-digit computation, and the `TypeError` of concatenating the `False`
result of `_check`. -/
def convert (isbn : List Char) : Option (List Char) :=
  let short := _isbn_strip isbn
  match isValid short with
  | none => none
  | some false => none
  | some true =>
    if short.length = 10 then
      let stem := ['9', '7', '8'] ++ short.dropLast
      match _check stem with
      | some (StrOrFalse.str c) => some (stem ++ c)
      | _ => none
    else
      if short.take 3 = ['9', '7', '8'] then
        let stem := (short.drop 3).dropLast
        match _check stem with
        | some (StrOrFalse.str c) => some (stem ++ c)
        | _ => none
      else none

/-! ## Character and strip lemmas -/

lemma stripMap_eq_self_of_isDigit {c : Char} (h : c.isDigit) : stripMap c = c := by
  simp [stripMap, h]

lemma stripMap_eq_X_of_not_digit {c : Char} (h : ¬ c.isDigit) : stripMap c = 'X' := by
  simp [stripMap, h]

lemma isDigit_or_eq_X_stripMap (c : Char) : (stripMap c).isDigit ∨ stripMap c = 'X' := by
  by_cases h : c.isDigit
  · left; rwa [stripMap_eq_self_of_isDigit h]
  · right; exact stripMap_eq_X_of_not_digit h

lemma isWordChar_stripMap (c : Char) : isWordChar (stripMap c) = true := by
  rcases isDigit_or_eq_X_stripMap c with h | h
  · simp [isWordChar, Char.isAlphanum, h]
  · rw [h]; decide

lemma stripMap_stripMap (c : Char) : stripMap (stripMap c) = stripMap c := by
  rcases isDigit_or_eq_X_stripMap c with h | h
  · exact stripMap_eq_self_of_isDigit h
  · rw [h]; decide

lemma mem_isbn_strip {c : Char} {cs : List Char} (h : c ∈ _isbn_strip cs) :
    c.isDigit = true ∨ c = 'X' := by
  unfold _isbn_strip at h
  obtain ⟨b, _, rfl⟩ := List.mem_map.mp h
  exact isDigit_or_eq_X_stripMap b

lemma isbn_strip_idem (cs : List Char) : _isbn_strip (_isbn_strip cs) = _isbn_strip cs := by
  unfold _isbn_strip
  rw [List.filter_eq_self.mpr, List.map_map]
  · exact List.map_congr_left (fun c _ => stripMap_stripMap c)
  · intro a ha
    obtain ⟨b, _, rfl⟩ := List.mem_map.mp ha
    exact isWordChar_stripMap b

lemma isbn_strip_fix {cs : List Char} (h : ∀ c ∈ cs, c.isDigit = true ∨ c = 'X') :
    _isbn_strip cs = cs := by
  unfold _isbn_strip
  rw [List.filter_eq_self.mpr]
  · calc cs.map stripMap = cs.map id := List.map_congr_left (by
        intro a ha
        rcases h a ha with hd | hx
        · simpa using stripMap_eq_self_of_isDigit hd
        · subst hx; decide)
    _ = cs := List.map_id cs
  · intro a ha
    rcases h a ha with hd | hx
    · simp [isWordChar, Char.isAlphanum, hd]
    · subst hx; decide

lemma isI10_strip (cs : List Char) : isI10 (_isbn_strip cs) = isI10 cs := by
  simp only [isI10, isbn_strip_idem]

lemma isI13_strip (cs : List Char) : isI13 (_isbn_strip cs) = isI13 cs := by
  simp only [isI13, isbn_strip_idem]

lemma isValid_strip (cs : List Char) : isValid (_isbn_strip cs) = isValid cs := by
  simp only [isValid, isbn_strip_idem]

lemma pyIntDigit_bounds {c : Char} {v : Nat} (h : pyIntDigit c = some v) :
    c.isDigit = true ∧ c.toNat = 48 + v ∧ v ≤ 9 := by
  unfold pyIntDigit at h
  split at h
  · rename_i hd
    have hv : c.toNat - 48 = v := by injection h
    have hb : 48 ≤ c.toNat ∧ c.toNat ≤ 57 := by simpa [Char.isDigit] using hd
    exact ⟨hd, by omega, by omega⟩
  · exact absurd h (by simp)

lemma char_eq_of_toNat_eq {a b : Char} (h : a.toNat = b.toNat) : a = b := by
  have h2 : Char.ofNat a.toNat = Char.ofNat b.toNat := by rw [h]
  rwa [Char.ofNat_toNat, Char.ofNat_toNat] at h2

lemma digitChar_toNat {k : Nat} (h : k ≤ 9) : (digitChar k).toNat = 48 + k := by
  interval_cases k <;> decide

lemma isDigit_digitChar {k : Nat} (h : k ≤ 9) : (digitChar k).isDigit = true := by
  interval_cases k <;> decide

lemma pyIntDigit_of_isDigit {c : Char} (h : c.isDigit = true) :
    pyIntDigit c = some (c.toNat - 48) := by
  simp [pyIntDigit, h]

/-! ## Weighted-sum lemmas -/

/-- Numeric value of a character under `isI10`'s digit handling. -/
def val10 (c : Char) : Nat := if c = 'X' || c = 'x' then 10 else c.toNat - 48

/-- Total weighted sum with decreasing weights (the value of `sumI10` and
`sumCheck10` on the inputs where they succeed). -/
def w10 : Int → List Char → Int
  | _, [] => 0
  | w, c :: cs => w * (val10 c : Int) + w10 (w - 1) cs

/-- Total alternating weighted sum (the value of `sumI13` where it succeeds). -/
def w13 : Nat → List Char → Nat
  | _, [] => 0
  | k, c :: cs => (if k % 2 = 0 then c.toNat - 48 else 3 * (c.toNat - 48)) + w13 (k + 1) cs

lemma pyInt10_eq_some_val10 {c : Char} (h : c.isDigit = true ∨ c = 'X') :
    pyInt10 c = some (val10 c) := by
  rcases h with hd | hx
  · have hX : c ≠ 'X' := by rintro rfl; exact absurd hd (by decide)
    have hx : c ≠ 'x' := by rintro rfl; exact absurd hd (by decide)
    simp [pyInt10, val10, hX, hx, pyIntDigit_of_isDigit hd]
  · subst hx; decide

lemma val10_of_isDigit {c : Char} (h : c.isDigit = true) : val10 c = c.toNat - 48 := by
  have hX : c ≠ 'X' := by rintro rfl; exact absurd h (by decide)
  have hx : c ≠ 'x' := by rintro rfl; exact absurd h (by decide)
  simp [val10, hX, hx]

lemma sumI10_eq_w10 {cs : List Char} (h : ∀ c ∈ cs, c.isDigit = true ∨ c = 'X') :
    ∀ w : Int, sumI10 cs w = some (w10 w cs) := by
  induction cs with
  | nil => intro w; rfl
  | cons c cs ih =>
    intro w
    have hc := pyInt10_eq_some_val10 (h c (List.mem_cons_self c cs))
    have hrest := ih (fun a ha => h a (List.mem_cons_of_mem c ha)) (w - 1)
    simp [sumI10, hc, hrest, w10]

lemma sumCheck10_eq_w10 {cs : List Char} (h : ∀ c ∈ cs, c.isDigit = true) :
    ∀ w : Int, sumCheck10 cs w = some (w10 w cs) := by
  induction cs with
  | nil => intro w; rfl
  | cons c cs ih =>
    intro w
    have hd := h c (List.mem_cons_self c cs)
    have hc := pyIntDigit_of_isDigit hd
    have hrest := ih (fun a ha => h a (List.mem_cons_of_mem c ha)) (w - 1)
    simp [sumCheck10, hc, hrest, w10, val10_of_isDigit hd]

lemma sumI13_eq_w13 {cs : List Char} (h : ∀ c ∈ cs, c.isDigit = true) :
    ∀ k : Nat, sumI13 cs k = some (w13 k cs) := by
  induction cs with
  | nil => intro k; rfl
  | cons c cs ih =>
    intro k
    have hc := pyIntDigit_of_isDigit (h c (List.mem_cons_self c cs))
    have hrest := ih (fun a ha => h a (List.mem_cons_of_mem c ha)) (k + 1)
    simp [sumI13, hc, hrest, w13]

lemma sumI13_some_all_digits {cs : List Char} :
    ∀ {k s : Nat}, sumI13 cs k = some s → ∀ c ∈ cs, c.isDigit = true := by
  induction cs with
  | nil => intro k s _ c hc; cases hc
  | cons c cs ih =>
    intro k s h a ha
    rcases List.mem_cons.mp ha with rfl | hmem
    · by_contra hnd
      have hnone : pyIntDigit a = none := by simp [pyIntDigit, hnd]
      simp [sumI13, hnone] at h
    · cases hd : pyIntDigit c with
      | none => simp [sumI13, hd] at h
      | some d =>
        cases hrest : sumI13 cs (k + 1) with
        | none => simp [sumI13, hd, hrest] at h
        | some s2 => exact ih hrest a hmem

lemma w10_append (cs ds : List Char) : ∀ w : Int,
    w10 w (cs ++ ds) = w10 w cs + w10 (w - cs.length) ds := by
  induction cs with
  | nil => intro w; simp [w10]
  | cons c cs ih =>
    intro w
    have harg : w - 1 - (cs.length : Int) = w - ((c :: cs).length : Int) := by
      rw [List.length_cons]; push_cast; ring
    calc w10 w ((c :: cs) ++ ds)
        = w * (val10 c : Int) + w10 (w - 1) (cs ++ ds) := rfl
      _ = w * (val10 c : Int) + (w10 (w - 1) cs + w10 (w - 1 - cs.length) ds) := by
            rw [ih (w - 1)]
      _ = (w * (val10 c : Int) + w10 (w - 1) cs) + w10 (w - ((c :: cs).length : Int)) ds := by
            rw [harg]; ring
      _ = w10 w (c :: cs) + w10 (w - ((c :: cs).length : Int)) ds := rfl

lemma w13_append (cs ds : List Char) : ∀ k : Nat,
    w13 k (cs ++ ds) = w13 k cs + w13 (k + cs.length) ds := by
  induction cs with
  | nil => intro k; simp [w13]
  | cons c cs ih =>
    intro k
    have harg : k + 1 + cs.length = k + (c :: cs).length := by
      rw [List.length_cons]; omega
    calc w13 k ((c :: cs) ++ ds)
        = (if k % 2 = 0 then c.toNat - 48 else 3 * (c.toNat - 48)) + w13 (k + 1) (cs ++ ds) := rfl
      _ = (if k % 2 = 0 then c.toNat - 48 else 3 * (c.toNat - 48)) +
            (w13 (k + 1) cs + w13 (k + 1 + cs.length) ds) := by rw [ih (k + 1)]
      _ = ((if k % 2 = 0 then c.toNat - 48 else 3 * (c.toNat - 48)) + w13 (k + 1) cs) +
            w13 (k + (c :: cs).length) ds := by rw [harg]; omega
      _ = w13 k (c :: cs) + w13 (k + (c :: cs).length) ds := rfl

/-! ## Check-digit correctness lemmas -/

/-- Appending the ISBN-13 check digit computed by `_checkI13` to a 12-digit stem
yields a string accepted by `isI13`. -/
lemma checkI13_concat {stem : List Char} (hd : ∀ c ∈ stem, c.isDigit = true)
    (hl : stem.length = 12) :
    ∃ cc : Char, _checkI13 stem = some [cc] ∧ cc.isDigit = true ∧
      isI13 (stem ++ [cc]) = some true := by
  have hsum := sumI13_eq_w13 hd 0
  set s := w13 0 stem with hs
  have key : ∀ cc : Char, cc.isDigit = true → (s + (cc.toNat - 48)) % 10 = 0 →
      isI13 (stem ++ [cc]) = some true := by
    intro cc hcd hmod
    have hall : ∀ c ∈ stem ++ [cc], c.isDigit = true := by
      intro c hc
      rcases List.mem_append.mp hc with h | h
      · exact hd c h
      · rw [List.mem_singleton.mp h]; exact hcd
    have hfix : _isbn_strip (stem ++ [cc]) = stem ++ [cc] :=
      isbn_strip_fix (fun c hc => Or.inl (hall c hc))
    have hsum2 := sumI13_eq_w13 hall 0
    have hw : w13 0 (stem ++ [cc]) = s + (cc.toNat - 48) := by
      rw [w13_append, hl]
      show s + w13 12 [cc] = s + (cc.toNat - 48)
      simp [w13]
    have hlen : (stem ++ [cc]).length = 13 := by simp [hl]
    simp only [isI13]
    rw [hfix]
    simp [hlen, hsum2, hw, hmod]
  by_cases h0 : s % 10 = 0
  · refine ⟨'0', ?_, by decide, key '0' (by decide) ?_⟩
    · unfold _checkI13
      rw [hsum]
      simp [h0]
    · have h48 : '0'.toNat - 48 = 0 := by decide
      omega
  · have hchk9 : 10 - s % 10 ≤ 9 := by omega
    refine ⟨digitChar (10 - s % 10), ?_, isDigit_digitChar hchk9,
      key _ (isDigit_digitChar hchk9) ?_⟩
    · unfold _checkI13
      rw [hsum]
      have h10 : ¬ (10 - s % 10 = 10) := by omega
      simp [h10]
    · rw [digitChar_toNat hchk9]
      omega

/-- Appending the ISBN-10 check digit computed by `checkI10` to a 9-digit stem
yields a string accepted by `isI10`. -/
lemma checkI10_concat {stem : List Char} (hd : ∀ c ∈ stem, c.isDigit = true)
    (hl : stem.length = 9) :
    ∃ cx : Char, checkI10 stem = some [cx] ∧ (cx.isDigit = true ∨ cx = 'X') ∧
      isI10 (stem ++ [cx]) = some true := by
  have hsum := sumCheck10_eq_w10 hd 10
  set s := w10 10 stem with hs
  have hm0 : 0 ≤ s % 11 := Int.emod_nonneg s (by norm_num)
  have hm1 : s % 11 < 11 := Int.emod_lt_of_pos s (by norm_num)
  have key : ∀ cx : Char, (cx.isDigit = true ∨ cx = 'X') →
      (s + (val10 cx : Int)) % 11 = 0 → isI10 (stem ++ [cx]) = some true := by
    intro cx hcx hmod
    have hall : ∀ c ∈ stem ++ [cx], c.isDigit = true ∨ c = 'X' := by
      intro c hc
      rcases List.mem_append.mp hc with h | h
      · exact Or.inl (hd c h)
      · rw [List.mem_singleton.mp h]; exact hcx
    have hfix := isbn_strip_fix hall
    have hsum2 := sumI10_eq_w10 hall 10
    have hw : w10 10 (stem ++ [cx]) = s + (val10 cx : Int) := by
      rw [w10_append, hl]
      have h1 : (10 : Int) - ((9 : Nat) : Int) = 1 := by norm_num
      rw [h1]
      simp [w10]
    have hlen : (stem ++ [cx]).length = 10 := by simp [hl]
    simp only [isI10]
    rw [hfix]
    simp [hlen, hsum2, hw, hmod]
  by_cases hX : (11 : Int) - s % 11 = 10
  · refine ⟨'X', ?_, Or.inr rfl, key 'X' (Or.inr rfl) ?_⟩
    · unfold checkI10
      rw [hsum]
      simp [hX]
    · have hv : val10 'X' = 10 := by decide
      rw [hv]; push_cast; omega
  · by_cases h0 : (11 : Int) - s % 11 = 11
    · refine ⟨'0', ?_, Or.inl (by decide), key '0' (Or.inl (by decide)) ?_⟩
      · unfold checkI10
        rw [hsum]
        simp [hX, h0]
      · have hv : val10 '0' = 0 := by decide
        rw [hv]; push_cast; omega
    · have hchk9 : (11 - s % 11).toNat ≤ 9 := by omega
      refine ⟨digitChar (11 - s % 11).toNat, ?_,
        Or.inl (isDigit_digitChar hchk9), key _ (Or.inl (isDigit_digitChar hchk9)) ?_⟩
      · unfold checkI10
        rw [hsum]
        simp [hX, h0]
      · have hv : val10 (digitChar (11 - s % 11).toNat) = (11 - s % 11).toNat := by
          rw [val10_of_isDigit (isDigit_digitChar hchk9), digitChar_toNat hchk9]
          omega
        rw [hv]
        omega

/-- A valid ISBN-10 whose first nine stripped characters are digits converts to
a string accepted by `isI13`. -/
lemma convert_valid10_aux {s : List Char} (hv : isI10 s = some true)
    (hdig : ∀ c ∈ (_isbn_strip s).dropLast, c.isDigit = true) :
    ∃ r, convert s = some r ∧ isI13 r = some true := by
  have hlen : (_isbn_strip s).length = 10 := by
    by_contra hne
    simp only [isI10] at hv
    rw [if_pos hne] at hv
    exact absurd hv (by simp)
  set short := _isbn_strip s with hshort
  have hstem_digits : ∀ c ∈ ['9', '7', '8'] ++ short.dropLast, c.isDigit = true := by
    intro c hc
    rcases List.mem_append.mp hc with h | h
    · simp at h; rcases h with rfl | rfl | rfl <;> decide
    · exact hdig c h
  have hstem_len : (['9', '7', '8'] ++ short.dropLast).length = 12 := by
    simp [List.length_dropLast, hlen]
  obtain ⟨cc, hck, hccd, hvalid13⟩ := checkI13_concat hstem_digits hstem_len
  refine ⟨(['9', '7', '8'] ++ short.dropLast) ++ [cc], ?_, hvalid13⟩
  have hfixshort : _isbn_strip short = short := by
    rw [hshort]; exact isbn_strip_idem s
  have hvalid : isValid short = some true := by
    simp only [isValid]
    rw [hfixshort, hlen]
    simp only [if_pos rfl]
    rw [hshort, isI10_strip]
    exact hv
  have hstemfix : _isbn_strip (['9', '7', '8'] ++ short.dropLast) =
      ['9', '7', '8'] ++ short.dropLast :=
    isbn_strip_fix (fun c hc => Or.inl (hstem_digits c hc))
  have hcheck : _check (['9', '7', '8'] ++ short.dropLast) = some (StrOrFalse.str [cc]) := by
    simp only [_check]
    rw [hstemfix, hstem_len, hck]
    simp
  have hcheck2 : _check ('9' :: '7' :: '8' :: short.dropLast) = some (StrOrFalse.str [cc]) :=
    hcheck
  simp only [convert]
  rw [← hshort, hvalid]
  simp [hlen, hcheck2]

/-- A valid ISBN-13 with prefix 978 converts to an ISBN-10, and converting that
back reproduces the original stripped digits. -/
lemma convert_roundtrip13_aux {t : List Char} (hv : isI13 t = some true)
    (h978 : (_isbn_strip t).take 3 = ['9', '7', '8']) :
    ∃ u, convert t = some u ∧ convert u = some (_isbn_strip t) := by
  set short := _isbn_strip t with hshort
  have hbody : (if short.length ≠ 13 then some false
      else match sumI13 short 0 with
        | none => none
        | some s => some (s % 10 == 0)) = some true := by
    have h := hv
    simp only [isI13] at h
    rw [← hshort] at h
    exact h
  have hlen : short.length = 13 := by
    by_contra hne
    rw [if_pos hne] at hbody
    exact absurd hbody (by simp)
  rw [if_neg (by omega : ¬ short.length ≠ 13)] at hbody
  have hdigits : ∀ c ∈ short, c.isDigit = true := by
    cases hsum : sumI13 short 0 with
    | none => rw [hsum] at hbody; simp at hbody
    | some s => exact sumI13_some_all_digits hsum
  have hsumw := sumI13_eq_w13 hdigits 0
  have hmod : w13 0 short % 10 = 0 := by
    rw [hsumw] at hbody
    simpa using hbody
  have hsplit : short = ['9', '7', '8'] ++ short.drop 3 := by
    conv_lhs => rw [← List.take_append_drop 3 short]
    rw [h978]
  have hrestlen : (short.drop 3).length = 10 := by simp [hlen]
  have hrestne : short.drop 3 ≠ [] := by
    intro h; rw [h] at hrestlen; simp at hrestlen
  obtain ⟨rl, hrl⟩ : ∃ rl, short.drop 3 = (short.drop 3).dropLast ++ [rl] :=
    ⟨(short.drop 3).getLast hrestne, (List.dropLast_append_getLast hrestne).symm⟩
  have hstem9len : ((short.drop 3).dropLast).length = 9 := by
    rw [List.length_dropLast, hrestlen]
  have hstem9digits : ∀ c ∈ (short.drop 3).dropLast, c.isDigit = true := fun c hc =>
    hdigits c (List.drop_subset 3 short (List.dropLast_subset _ hc))
  obtain ⟨cx, hck10, hcxdx, hvalid10⟩ := checkI10_concat hstem9digits hstem9len
  refine ⟨(short.drop 3).dropLast ++ [cx], ?_, ?_⟩
  · -- convert t reaches the 13-digit branch and appends the ISBN-10 check digit
    have hfixshort : _isbn_strip short = short := by
      rw [hshort]; exact isbn_strip_idem t
    have hvalidshort : isValid short = some true := by
      simp only [isValid]
      rw [hfixshort, hlen]
      norm_num
      rw [hshort, isI13_strip]
      exact hv
    have hcheck9 : _check ((short.drop 3).dropLast) = some (StrOrFalse.str [cx]) := by
      simp only [_check]
      rw [isbn_strip_fix (fun c hc => Or.inl (hstem9digits c hc)), hstem9len, hck10]
      simp
    simp only [convert]
    rw [← hshort, hvalidshort]
    simp [hlen, h978, hcheck9]
  · -- converting the ISBN-10 back reproduces the stripped original
    have hufix : _isbn_strip ((short.drop 3).dropLast ++ [cx]) =
        (short.drop 3).dropLast ++ [cx] := by
      apply isbn_strip_fix
      intro c hc
      rcases List.mem_append.mp hc with h | h
      · exact Or.inl (hstem9digits c h)
      · rw [List.mem_singleton.mp h]; exact hcxdx
    have hulen : ((short.drop 3).dropLast ++ [cx]).length = 10 := by
      simp [hstem9len]
    have hvalidu : isValid ((short.drop 3).dropLast ++ [cx]) = some true := by
      simp only [isValid]
      rw [hufix, hulen]
      simp only [if_pos rfl]
      exact hvalid10
    have hudrop : ((short.drop 3).dropLast ++ [cx]).dropLast = (short.drop 3).dropLast :=
      List.dropLast_concat ..
    have hshortsplit2 : short = (['9', '7', '8'] ++ (short.drop 3).dropLast) ++ [rl] := by
      rw [List.append_assoc, ← hrl, ← hsplit]
    have hstem12digits : ∀ c ∈ ['9', '7', '8'] ++ (short.drop 3).dropLast,
        c.isDigit = true := by
      intro c hc
      rcases List.mem_append.mp hc with h | h
      · simp at h; rcases h with rfl | rfl | rfl <;> decide
      · exact hstem9digits c h
    have hstem12len : (['9', '7', '8'] ++ (short.drop 3).dropLast).length = 12 := by
      simp [hstem9len]
    have hrlmem : rl ∈ short := by
      rw [hshortsplit2]
      exact List.mem_append.mpr (Or.inr (List.mem_singleton_self rl))
    have hrld : rl.isDigit = true := hdigits rl hrlmem
    have hrlb : 48 ≤ rl.toNat ∧ rl.toNat ≤ 57 := by simpa [Char.isDigit] using hrld
    have hsum12 := sumI13_eq_w13 hstem12digits 0
    have hdecomp : w13 0 short =
        w13 0 (['9', '7', '8'] ++ (short.drop 3).dropLast) + (rl.toNat - 48) := by
      conv_lhs => rw [hshortsplit2]
      rw [w13_append, hstem12len]
      show _ + w13 12 [rl] = _
      simp [w13]
    have hchk13 : _checkI13 (['9', '7', '8'] ++ (short.drop 3).dropLast) = some [rl] := by
      unfold _checkI13
      rw [hsum12]
      set s12 := w13 0 (['9', '7', '8'] ++ (short.drop 3).dropLast) with hs12
      by_cases h0 : s12 % 10 = 0
      · have hrl0 : rl = '0' := by
          have htn : rl.toNat = 48 := by omega
          exact char_eq_of_toNat_eq (by rw [htn]; decide)
        simp [h0, hrl0]
      · have hchkle : 10 - s12 % 10 ≤ 9 := by omega
        have hrleq : rl = digitChar (10 - s12 % 10) := by
          apply char_eq_of_toNat_eq
          rw [digitChar_toNat hchkle]
          omega
        have h10 : ¬ (10 - s12 % 10 = 10) := by omega
        simp [h10, hrleq]
    have hcheck12 : _check (['9', '7', '8'] ++ (short.drop 3).dropLast) =
        some (StrOrFalse.str [rl]) := by
      simp only [_check]
      rw [isbn_strip_fix (fun c hc => Or.inl (hstem12digits c hc)), hstem12len, hchk13]
      simp
    have hcheck12c : _check ('9' :: '7' :: '8' :: (short.drop 3).dropLast) =
        some (StrOrFalse.str [rl]) := hcheck12
    simp only [convert]
    rw [hufix, hvalidu]
    simp [hulen, hudrop, hcheck12c]
    exact hshortsplit2.symm

/-! ## Claim C1 -/

/-- C1 (counterexample): the string "X000000050" passes the code's ISBN-10
validity check `isI10` (which accepts the check letter X at any position), yet
`convert` raises on it instead of yielding a valid ISBN-13, because the
ISBN-13 check-digit loop cannot convert the letter X to an integer.  So the
claim fails for this valid-per-the-code ISBN-10. -/
theorem convert_valid10_counterexample :
    isI10 "X000000050".data = some true ∧ convert "X000000050".data = none :=
  ⟨by decide, by decide⟩

/-- C1 (amended): for every string whose stripped form is a valid ISBN-10 with
digits in its first nine positions (the check letter X only in the final
position), `convert` yields a string that passes the ISBN-13 validity check;
and for every string whose stripped form is a valid ISBN-13 beginning with
"978", converting twice reproduces the stripped 13-digit form. -/
theorem convert_valid_and_roundtrip :
    (∀ s : List Char, isI10 s = some true →
      (∀ c ∈ (_isbn_strip s).dropLast, c.isDigit = true) →
      ∃ r, convert s = some r ∧ isI13 r = some true) ∧
    (∀ t : List Char, isI13 t = some true →
      (_isbn_strip t).take 3 = ['9', '7', '8'] →
      ∃ u, convert t = some u ∧ convert u = some (_isbn_strip t)) :=
  ⟨fun _ hv hdig => convert_valid10_aux hv hdig,
   fun _ hv h978 => convert_roundtrip13_aux hv h978⟩

/-- Witness for C1's amended theorem at the concrete ISBN-10 "0306406152" and
the concrete ISBN-13 "9780306406157". -/
theorem convert_valid_and_roundtrip_witness :
    (∃ r, convert "0306406152".data = some r ∧ isI13 r = some true) ∧
    (∃ u, convert "9780306406157".data = some u ∧
      convert u = some (_isbn_strip "9780306406157".data)) :=
  ⟨convert_valid_and_roundtrip.1 "0306406152".data (by decide) (by decide),
   convert_valid_and_roundtrip.2 "9780306406157".data (by decide) (by decide)⟩

/-! ## Claim C2 -/

/-- C2 (counterexample): the ISBN-13 check-digit function applied to the
claimed 12-digit stem "978030640614" returns "0", not "7": the claim's second
known vector does not hold on the code. -/
theorem checkI13_vector_counterexample :
    _checkI13 "978030640614".data = some "0".data ∧
    _checkI13 "978030640614".data ≠ some "7".data :=
  ⟨by decide, by decide⟩

/-- C2 (amended): the check-digit computations (pure functions by
construction) on the corrected known vectors: the ISBN-10 check digit of the
9-digit stem "030640615" is "2", and the ISBN-13 check digit of the 12-digit
stem "978030640615" is "7" (matching the ISBN-13 "9780306406157"). -/
theorem checkDigit_known_vectors :
    checkI10 "030640615".data = some "2".data ∧
    _checkI13 "978030640615".data = some "7".data :=
  ⟨by decide, by decide⟩

/-! ## Claim C10 -/

/-- C10: stripping is idempotent and the combined validity check is invariant
under stripping, so an ISBN containing hyphens or whitespace validates exactly
like its stripped form. -/
theorem strip_idem_isValid_invariant (cs : List Char) :
    _isbn_strip (_isbn_strip cs) = _isbn_strip cs ∧
    isValid cs = isValid (_isbn_strip cs) :=
  ⟨isbn_strip_idem cs, (isValid_strip cs).symm⟩

/-! ## Parsed response trees and the safe accessors (`_LXMLWrapper`) -/

/-- A parsed XML response tree (an lxml objectify element): tag name, optional
text content, attributes, and children in document order. -/
inductive XTree where
  | node (tag : String) (text : Option (List Char)) (attrs : List (String × List Char))
      (children : List XTree)

def XTree.tag : XTree → String
  | .node tg _ _ _ => tg

def XTree.text : XTree → Option (List Char)
  | .node _ tx _ _ => tx

def XTree.children : XTree → List XTree
  | .node _ _ _ ch => ch

/-- The children of `t` carrying tag `name`, in document order; `objectify`
attribute access addresses the first of these, iteration yields all of them. -/
def childrenNamed (t : XTree) (name : String) : List XTree :=
  t.children.filter (fun c => c.tag == name)

/-- Python `getattr(parent, element, None)` on an objectify element: the
(nonempty) collection of same-named children, or `None` when there is none. -/
def getattrE (t : XTree) (name : String) : Option (List XTree) :=
  match childrenNamed t name with
  | [] => none
  | l => some l

/-- The loop of `_safe_get_element` over `elements[:-1]`: step to the first
child with the given tag, returning `None` as soon as a segment is missing. -/
def walkFirst : XTree → List String → Option XTree
  | p, [] => some p
  | p, e :: es =>
    match (childrenNamed p e).head? with
    | none => none
    | some q => walkFirst q es

/-- `_LXMLWrapper._safe_get_element`, after the `path.split('.')`: loop over
`elements[:-1]` with early `None` return, then a final defaulted `getattr`. -/
def safeGetSegs (root : XTree) (elements : List String) : Option (List XTree) :=
  match walkFirst root elements.dropLast with
  | none => none
  | some parent => getattrE parent (elements.getLastD "")

/-- Python `path.split('.')` (structural recursion so that it evaluates):
`acc` holds the reversed characters of the current segment. -/
def splitDot : List Char → List Char → List String
  | [], acc => [String.mk acc.reverse]
  | c :: cs, acc =>
    if c = '.' then String.mk acc.reverse :: splitDot cs []
    else splitDot cs (c :: acc)

/-- The dotted path split into segments. -/
def pySplitDot (path : String) : List String := splitDot path.data []

/-- `_LXMLWrapper._safe_get_element` on the dotted path string. -/
def _safe_get_element (root : XTree) (path : String) : Option (List XTree) :=
  safeGetSegs root (pySplitDot path)

/-- Python `str.strip`: drop leading and trailing whitespace. -/
def pyStrip (s : List Char) : List Char :=
  ((s.dropWhile Char.isWhitespace).reverse.dropWhile Char.isWhitespace).reverse

/-- `_LXMLWrapper._safe_get_element_text` (the `src/__init__.py` variant,
which tests `len(element.text) > 0` before stripping). -/
def _safe_get_element_text (root : XTree) (path : String) : Option (List Char) :=
  match _safe_get_element root path with
  | none => none
  | some l =>
    match l.head? with
    | none => none
    | some el =>
      match el.text with
      | none => none
      | some tx => if tx.length > 0 then some (pyStrip tx) else none

/-- Spec-side accessor, written from the spec's words: walk the tree one
segment at a time; any segment lookup returning absent short-circuits to
absent for the whole path. -/
def specDescend : XTree → List String → Option (List XTree)
  | _, [] => none
  | t, [e] => getattrE t e
  | t, e :: es =>
    match (childrenNamed t e).head? with
    | none => none
    | some q => specDescend q es


lemma safeGetSegs_eq_specDescend : ∀ (es : List String) (root : XTree), es ≠ [] →
    safeGetSegs root es = specDescend root es := by
  intro es
  induction es with
  | nil => intro root h; exact absurd rfl h
  | cons e es ih =>
    intro root _
    cases es with
    | nil => rfl
    | cons f fs =>
      cases hq : (childrenNamed root e).head? with
      | none =>
        simp [safeGetSegs, walkFirst, hq, specDescend]
      | some q =>
        have h1 : safeGetSegs root (e :: f :: fs) = safeGetSegs q (f :: fs) := by
          simp [safeGetSegs, walkFirst, hq, List.getLastD_cons]
        rw [h1, ih q (by simp)]
        simp [specDescend, hq]

/-! ## Claim C4 -/

/-- C4: on every tree and every split dotted path (a nonempty segment list),
the code's safe accessor coincides with the spec's one-segment-at-a-time walk:
it returns the addressed descendant exactly when every segment exists and
short-circuits to absent as soon as any segment is missing; it is a total
function (never raises) and never returns a partial result. -/
theorem safe_get_element_matches_spec (root : XTree) (es : List String) (h : es ≠ []) :
    safeGetSegs root es = specDescend root es :=
  safeGetSegs_eq_specDescend es root h

/-- Witness for C4 at a concrete tree and a concrete three-segment path with a
missing intermediate segment. -/
theorem safe_get_element_matches_spec_witness :
    safeGetSegs (XTree.node "r" none [] []) ["book", "authors", "author"] =
      specDescend (XTree.node "r" none [] []) ["book", "authors", "author"] :=
  safe_get_element_matches_spec (XTree.node "r" none [] [])
    ["book", "authors", "author"] (by simp)

/-! ## Claim C5 -/

/-- A response whose `book.title` text is whitespace only. -/
def wsTree : XTree :=
  XTree.node "GoodreadsResponse" none []
    [XTree.node "book" none []
      [XTree.node "title" (some "  ".data) [] []]]

/-- C5 (counterexample): a node whose text consists only of whitespace yields
the empty string, not absent: the length test `len(element.text) > 0` runs
before `.strip()`. -/
theorem text_whitespace_counterexample :
    _safe_get_element_text wsTree "book.title" = some [] ∧
    _safe_get_element_text wsTree "book.title" ≠ none :=
  ⟨by decide, by decide⟩

/-- C5 (amended): the text accessor returns the node's text trimmed of
surrounding whitespace whenever the path resolves and the raw text is
nonempty; it returns absent when the path is missing, when the node has no
text, or when the raw text is the empty string.  A whitespace-only text is
nonempty before trimming, so it yields the empty string rather than absent. -/
theorem safe_get_element_text_spec (root : XTree) (path : String) :
    (_safe_get_element root path = none → _safe_get_element_text root path = none) ∧
    (∀ l el, _safe_get_element root path = some l → l.head? = some el →
      (el.text = none → _safe_get_element_text root path = none) ∧
      (∀ tx, el.text = some tx →
        _safe_get_element_text root path =
          if tx.length > 0 then some (pyStrip tx) else none)) := by
  constructor
  · intro h
    simp [_safe_get_element_text, h]
  · intro l el hl hel
    constructor
    · intro ht
      simp [_safe_get_element_text, hl, hel, ht]
    · intro tx ht
      simp [_safe_get_element_text, hl, hel, ht]

/-- A response whose `book.title` text is " 61 Hours " (with surrounding
whitespace). -/
def titleTree : XTree :=
  XTree.node "GoodreadsResponse" none []
    [XTree.node "book" none []
      [XTree.node "title" (some " 61 Hours ".data) [] []]]

/-- Witness for C5's amended theorem at a concrete tree: the text comes back
trimmed. -/
theorem safe_get_element_text_spec_witness :
    _safe_get_element_text titleTree "book.title" = some "61 Hours".data := by
  have h := ((safe_get_element_text_spec titleTree "book.title").2
      [XTree.node "title" (some " 61 Hours ".data) [] []]
      (XTree.node "title" (some " 61 Hours ".data) [] [])
      (by rfl) (by rfl)).2 " 61 Hours ".data (by rfl)
  rw [h]
  decide

/-! ## Claim C3 -/

/-- Python truthiness of an optional string (`None` and `""` are falsy). -/
def pyTruthy : Option (List Char) → Bool
  | none => false
  | some s => !s.isEmpty

/-- Python `unicode(x)` applied to a text-or-`None` value: `None` renders as
the four-character string "None". -/
def pyUnicode (v : Option (List Char)) : List Char :=
  match v with
  | none => "None".data
  | some s => s

/-- `_GoodreadsBook.isbn` as written in `src/__init__.py`:
`unicode(self._safe_get_element_text('book.isbn13')) or
unicode(self._safe_get_element_text('book.isbn'))`. -/
def _GoodreadsBook_isbn (t : XTree) : List Char :=
  let a := pyUnicode (_safe_get_element_text t "book.isbn13")
  if a.isEmpty then pyUnicode (_safe_get_element_text t "book.isbn") else a

/-- `_GoodreadsBook.isbn` as written in `src/test_wrapper.py`:
`self._safe_get_element_text('book.isbn13') or
self._safe_get_element_text('book.isbn')`. -/
def _GoodreadsBook_isbn_testvariant (t : XTree) : Option (List Char) :=
  let a := _safe_get_element_text t "book.isbn13"
  if pyTruthy a then a else _safe_get_element_text t "book.isbn"

/-- A response carrying a 10-digit `book.isbn` and no `book.isbn13`. -/
def isbn10OnlyTree : XTree :=
  XTree.node "GoodreadsResponse" none []
    [XTree.node "book" none []
      [XTree.node "isbn" (some "0306406152".data) [] []]]

/-- C3 (code bug): with `book.isbn13` absent and `book.isbn` present, the
`isbn` accessor of `src/__init__.py` returns the literal string "None"
(because `unicode(None)` is the truthy string "None"), never the text of
`book.isbn`; the variant in `src/test_wrapper.py` returns the 10-digit field
as the claim states. -/
theorem isbn_prefers13_bug :
    _safe_get_element_text isbn10OnlyTree "book.isbn13" = none ∧
    _safe_get_element_text isbn10OnlyTree "book.isbn" = some "0306406152".data ∧
    _GoodreadsBook_isbn isbn10OnlyTree = "None".data ∧
    _GoodreadsBook_isbn_testvariant isbn10OnlyTree = some "0306406152".data :=
  ⟨by decide, by decide, by decide, by decide⟩

/-! ## Claim C6 -/

/-- `_GoodreadsBook.authors`:
`[author.name.text for author in self._safe_get_element('book.authors.author')]`.
Iterating over the `None` returned for a missing path raises `TypeError`, and
`author.name` (a `getattr` without default) raises `AttributeError` when the
child is absent; both raises are modelled as `Except.error`. -/
def _GoodreadsBook_authors (t : XTree) : Except String (List (Option (List Char))) :=
  match _safe_get_element t "book.authors.author" with
  | none => Except.error "TypeError"
  | some l =>
    l.mapM (fun a =>
      match (childrenNamed a "name").head? with
      | none => Except.error "AttributeError"
      | some nm => Except.ok nm.text)

/-- A response whose book carries a title but no `authors` element. -/
def noAuthorsTree : XTree :=
  XTree.node "GoodreadsResponse" none []
    [XTree.node "book" none []
      [XTree.node "title" (some "61 Hours".data) [] []]]

/-- A response with two authors, for contrast with the missing-path case. -/
def twoAuthorsTree : XTree :=
  XTree.node "GoodreadsResponse" none []
    [XTree.node "book" none []
      [XTree.node "authors" none []
        [XTree.node "author" none [] [XTree.node "name" (some "Lee Child".data) [] []],
         XTree.node "author" none [] [XTree.node "name" (some "Ann Byrde".data) [] []]]]]

/-- C6 (code bug): when the path `book.authors.author` is missing, reading the
authors field raises a `TypeError` (the list comprehension iterates over
`None`), instead of yielding the absent/empty result the claim states; on a
present path it does collect the author names. -/
theorem authors_missing_raises :
    _GoodreadsBook_authors noAuthorsTree = Except.error "TypeError" ∧
    _GoodreadsBook_authors twoAuthorsTree =
      Except.ok [some "Lee Child".data, some "Ann Byrde".data] :=
  ⟨by rfl, by rfl⟩

/-! ## Identifier resolver (`GoodreadsAPI.identify`, lines 553-576) -/

/-- The caller-supplied identifier set (only the schemes the code reads). -/
structure Identifiers where
  amazon : Option (List Char)
  goodreads : Option (List Char)
  isbn : Option (List Char)

/-- The goodreads-id resolution prefix of `GoodreadsAPI.identify`,
parameterised by the remote id-lookup collaborator
(`urlopen(ISBN_TO_BOOKID...).read()`, where `none` models a raised
exception — every call to it sits inside `try/except: pass`) and by the
outcome of the `_autocomplete_api` title search (whose exceptions are NOT
caught and propagate out of `identify`).  Besides the resolver's result it
returns the list of identifier values passed to the remote id-lookup, in call
order. -/
def resolveGoodreadsId (lookup : List Char → Option (List Char))
    (titleSearch : Except Unit (Option (List Char)))
    (identifiers : Identifiers) (title : Option (List Char))
    (disableTitleAuthorSearch : Bool) :
    Except Unit (Option (List Char)) × List (List Char) :=
  let step1 : Option (List Char) × List (List Char) :=
    match identifiers.amazon with
    | some a => if a.isEmpty then (none, []) else (lookup a, [a])
    | none => (none, [])
  let g1 := step1.1
  let g2 := if !pyTruthy g1 && pyTruthy identifiers.goodreads then identifiers.goodreads else g1
  let step3 : Option (List Char) × List (List Char) :=
    match identifiers.isbn with
    | some i =>
      if !pyTruthy g2 && !i.isEmpty then
        (match lookup i with
         | none => g2
         | some r => some r, step1.2 ++ [i])
      else (g2, step1.2)
    | none => (g2, step1.2)
  let g3 := step3.1
  if !pyTruthy g3 && pyTruthy title && !disableTitleAuthorSearch then
    match titleSearch with
    | Except.error e => (Except.error e, step3.2)
    | Except.ok r => (Except.ok r, step3.2)
  else (Except.ok g3, step3.2)

/-! ## Claim C7 -/

/-- C7: when the identifier set carries both an amazon and an isbn identifier
(and no direct goodreads id), and the remote id-lookup for the amazon value
fails (raises or times out, modelled as `none`), the resolver does not
propagate that failure: it goes on to attempt the remote lookup with the isbn
value (the trace records both attempts, amazon first) and resolves to that
lookup's successful result. -/
theorem identify_amazon_failure_falls_through_to_isbn
    (lookup : List Char → Option (List Char))
    (titleSearch : Except Unit (Option (List Char)))
    (identifiers : Identifiers) (title : Option (List Char))
    (disable : Bool) (a i gid : List Char)
    (hamazon : identifiers.amazon = some a) (ha : ¬ a.isEmpty)
    (hfail : lookup a = none)
    (hgr : identifiers.goodreads = none)
    (hisbn : identifiers.isbn = some i) (hi : ¬ i.isEmpty)
    (hok : lookup i = some gid) (hgid : ¬ gid.isEmpty) :
    resolveGoodreadsId lookup titleSearch identifiers title disable =
      (Except.ok (some gid), [a, i]) := by
  simp [resolveGoodreadsId, hamazon, ha, hfail, hgr, hisbn, hi, hok, hgid, pyTruthy]

/-- An id-lookup collaborator that fails on "AMZ" and resolves "ISBN" to
"12345". -/
def lookupW : List Char → Option (List Char) :=
  fun s => if s = "AMZ".data then none
    else if s = "ISBN".data then some "12345".data else none

/-- Witness for C7 with concrete identifiers and a concrete failing lookup. -/
theorem identify_amazon_failure_witness :
    resolveGoodreadsId lookupW (Except.ok none)
      ⟨some "AMZ".data, none, some "ISBN".data⟩ none false =
      (Except.ok (some "12345".data), ["AMZ".data, "ISBN".data]) :=
  identify_amazon_failure_falls_through_to_isbn lookupW (Except.ok none)
    ⟨some "AMZ".data, none, some "ISBN".data⟩ none false
    "AMZ".data "ISBN".data "12345".data
    rfl (by decide) (by decide) rfl rfl (by decide) (by decide) (by decide)

/-! ## Cover resolver (`GoodreadsAPI.get_cached_cover_url`) -/

/-- `GoodreadsAPI.get_cached_cover_url`, parameterised by the host's
`cached_identifier_to_cover_url` cache collaborator: `url = None`; if the
identifier set has a truthy `goodreads` entry, look its URL up in the cache;
return `url`. -/
def get_cached_cover_url (cached_identifier_to_cover_url : List Char → Option (List Char))
    (identifiers : Identifiers) : Option (List Char) :=
  let url : Option (List Char) := none
  if pyTruthy identifiers.goodreads then
    cached_identifier_to_cover_url (identifiers.goodreads.getD [])
  else url

/-! ## Claim C9 -/

/-- C9 (counterexample): with an identifier set carrying only an ISBN and a
cache that maps every key (so the claimed ISBN-to-native-id translation would
find both the id and its URL), the resolver still returns absent: the code
never consults the cache for an ISBN. -/
theorem cover_url_ignores_isbn_counterexample :
    get_cached_cover_url (fun _ => some "http://img".data)
      ⟨none, none, some "9780306406157".data⟩ = none :=
  by decide

/-- C9 (amended): the cover resolver consults the cache only for a native
goodreads id: if one is present (truthy), its cached URL (or absent on a cache
miss) is returned; in every other case — in particular when only an ISBN is
present — the result is absent, with no ISBN translation and no network
access. -/
theorem cover_url_spec (cache : List Char → Option (List Char))
    (identifiers : Identifiers) :
    (pyTruthy identifiers.goodreads = false →
      get_cached_cover_url cache identifiers = none) ∧
    (∀ g, identifiers.goodreads = some g → ¬ g.isEmpty →
      get_cached_cover_url cache identifiers = cache g) := by
  constructor
  · intro h
    simp [get_cached_cover_url, h]
  · intro g hg hne
    simp [get_cached_cover_url, hg, pyTruthy, hne]

/-- Witness for C9's amended theorem: a concrete cache hit through a native id
and a concrete miss with no identifiers at all. -/
theorem cover_url_spec_witness :
    get_cached_cover_url (fun _ => some "http://img".data)
      ⟨none, some "6977769".data, none⟩ = some "http://img".data ∧
    get_cached_cover_url (fun _ => some "http://img".data) ⟨none, none, none⟩ = none :=
  ⟨(cover_url_spec (fun _ => some "http://img".data)
      ⟨none, some "6977769".data, none⟩).2 "6977769".data rfl (by decide),
   (cover_url_spec (fun _ => some "http://img".data) ⟨none, none, none⟩).1 (by decide)⟩

/-! ## Metadata mapper (`GoodreadsAPI._GoodreadsBook_to_Metadata`) -/

/-- The Book Record fields the mapper reads: the values of the corresponding
`_GoodreadsBook` accessors.  Float-valued fields (series position, rating)
are carried as integers; their numeric content plays no role in the mapper's
identifier logic. -/
structure BookView where
  title : Option (List Char)
  authors : List (Option (List Char))
  id : Option (List Char)
  asin : Option (List Char)
  isbn : Option (List Char)
  image_url : Option (List Char)
  publisher : Option (List Char)
  pubdate : Option (Int × Int × Int)
  comments : Option (List Char)
  tags : List (List Char)
  series : Option (List Char)
  series_index : Option Int
  average_rating : Option Int

/-- The host's generic metadata object, as far as the mapper touches it. -/
structure PyMetadata where
  title : Option (List Char)
  authors : List (Option (List Char))
  source_relevance : Int
  identifiers : List (String × List Char)
  publisher : Option (List Char)
  pubdate : Option (Int × Int × Int)
  comments : Option (List Char)
  series : Option (List Char)
  series_index : Option Int
  rating : Option Int

/-- Modelled from the spec: the host metadata object's `set_identifier(typ,
val)` stores `val` under scheme `typ`; a falsy value (`None` or the empty
string) removes the scheme instead of storing it. -/
def set_identifier (ids : List (String × List Char)) (typ : String)
    (val : Option (List Char)) : List (String × List Char) :=
  if pyTruthy val then (typ, val.getD []) :: ids.filter (fun p => p.1 ≠ typ)
  else ids.filter (fun p => p.1 ≠ typ)

/-- Identifier lookup in the metadata's identifier mapping
(`mi.get_identifiers().get(typ)`). -/
def lookupId (ids : List (String × List Char)) (typ : String) : Option (List Char) :=
  (ids.find? (fun p => p.1 == typ)).map (fun p => p.2)

/-- Modelled from the spec: the host's `check_isbn13` validator returns its
argument when it passes the ISBN-13 validity check and `None` otherwise
("converting to 13-digit form first and validating the result before
committing it"). -/
def check_isbn13 (s : List Char) : Option (List Char) :=
  if isI13 s = some true then some s else none

/-- The preference flags read by the mapper. -/
structure GoodreadsPrefs where
  NEVER_REPLACE_ISBN : Bool
  NEVER_REPLACE_AMAZONID : Bool

/-- `GoodreadsAPI.clean_downloaded_metadata` rewrites only the title and the
author list; the regex trimming and case fixing it applies come from external
helpers, abstracted as the two function parameters. -/
def clean_downloaded_metadata (fixTitle : Option (List Char) → Option (List Char))
    (fixAuthors : List (Option (List Char)) → List (Option (List Char)))
    (mi : PyMetadata) : PyMetadata :=
  { mi with title := fixTitle mi.title, authors := fixAuthors mi.authors }

/-- Python truthiness of an optional number (`None` and zero are falsy). -/
def pyTruthyNum : Option Int → Bool
  | none => false
  | some r => r != 0

/-- The field-copy tail of `_GoodreadsBook_to_Metadata` (the statements from
`if book.publisher:` through `if book.average_rating:`): it assigns only
non-identifier metadata fields.  A `pubdate` datetime is truthy exactly when
present. -/
def copyBookFields (book : BookView) (mi : PyMetadata) : PyMetadata :=
  let mi := if pyTruthy book.publisher then { mi with publisher := book.publisher } else mi
  let mi := if book.pubdate.isSome then { mi with pubdate := book.pubdate } else mi
  let mi := if pyTruthy book.comments then { mi with comments := book.comments } else mi
  let mi := if pyTruthy book.series then
      { mi with
        series := book.series
        series_index := (if pyTruthyNum book.series_index then book.series_index else some 0) }
    else mi
  if pyTruthyNum book.average_rating then { mi with rating := book.average_rating } else mi

/-- `GoodreadsAPI._GoodreadsBook_to_Metadata`.  The image-url step only feeds
the host's cover cache (no metadata field), and the tag union is computed but
never assigned in the source (the assignment is commented out), so neither
appears in the output.  `convert` raising inside the `try` is the `none`
match arm (caught: the isbn field is left unset). -/
def _GoodreadsBook_to_Metadata (prefs : GoodreadsPrefs)
    (fixTitle : Option (List Char) → Option (List Char))
    (fixAuthors : List (Option (List Char)) → List (Option (List Char)))
    (book : BookView) : PyMetadata :=
  let mi : PyMetadata :=
    { title := book.title, authors := book.authors, source_relevance := 0,
      identifiers := [], publisher := none, pubdate := none, comments := none,
      series := none, series_index := none, rating := none }
  let mi := { mi with identifiers := set_identifier mi.identifiers "goodreads" book.id }
  let mi := if prefs.NEVER_REPLACE_ISBN && pyTruthy (lookupId mi.identifiers "isbn") then
      { mi with identifiers := set_identifier mi.identifiers "isbn" (some []) }
    else mi
  let mi := if pyTruthy book.asin && !prefs.NEVER_REPLACE_AMAZONID then
      { mi with identifiers := set_identifier mi.identifiers "amazon" book.asin }
    else mi
  let mi := if pyTruthy book.isbn && !prefs.NEVER_REPLACE_ISBN then
      match book.isbn with
      | some ib =>
        if ib.length = 10 then
          match convert ib with
          | none => mi
          | some c =>
            { mi with identifiers := set_identifier mi.identifiers "isbn" (check_isbn13 c) }
        else { mi with identifiers := set_identifier mi.identifiers "isbn" (check_isbn13 ib) }
      | none => mi
    else mi
  clean_downloaded_metadata fixTitle fixAuthors (copyBookFields book mi)

lemma find_filter_ne {typ typ2 : String} (h : typ2 ≠ typ) :
    ∀ ids : List (String × List Char),
    (ids.filter (fun p => p.1 ≠ typ)).find? (fun p => p.1 == typ2) =
      ids.find? (fun p => p.1 == typ2) := by
  intro ids
  induction ids with
  | nil => rfl
  | cons p ps ih =>
    by_cases hk : p.1 = typ
    · have hne : (decide (p.1 ≠ typ)) = false := by simp [hk]
      have hq : (p.1 == typ2) = false := by
        rw [hk]
        exact beq_eq_false_iff_ne.mpr (fun hh => h hh.symm)
      simp only [List.filter_cons, hne, if_false, List.find?_cons, hq]
      exact ih
    · have hne : (decide (p.1 ≠ typ)) = true := by simp [hk]
      simp only [List.filter_cons, hne, if_true, List.find?_cons]
      cases hq : (p.1 == typ2) with
      | true => rfl
      | false => exact ih

lemma lookupId_set_other {typ typ2 : String} (h : typ2 ≠ typ)
    (ids : List (String × List Char)) (v : Option (List Char)) :
    lookupId (set_identifier ids typ v) typ2 = lookupId ids typ2 := by
  unfold set_identifier lookupId
  split
  · have hq : ((typ : String) == typ2) = false :=
      beq_eq_false_iff_ne.mpr (fun hh => h hh.symm)
    simp only [List.find?_cons, hq]
    rw [find_filter_ne h]
  · rw [find_filter_ne h]

lemma lookupId_set_self (ids : List (String × List Char)) (typ : String)
    (v : Option (List Char)) :
    lookupId (set_identifier ids typ v) typ =
      if pyTruthy v then some (v.getD []) else none := by
  by_cases htv : pyTruthy v = true
  · simp only [set_identifier, lookupId, htv, if_true]
    simp [List.find?_cons]
  · rw [Bool.not_eq_true] at htv
    simp only [set_identifier, lookupId, htv, Bool.false_eq_true, if_false]
    rw [List.find?_eq_none.mpr]
    · rfl
    · intro p hp
      have hmem := List.of_mem_filter hp
      simp at hmem ⊢
      exact hmem

lemma check_isbn13_some {x v : List Char} (h : check_isbn13 x = some v) :
    isI13 v = some true := by
  unfold check_isbn13 at h
  split at h
  · rename_i hv
    obtain rfl : x = v := by injection h
    exact hv
  · cases h

lemma copyBookFields_identifiers (book : BookView) (mi : PyMetadata) :
    (copyBookFields book mi).identifiers = mi.identifiers := by
  unfold copyBookFields
  split_ifs <;> rfl

set_option maxRecDepth 8000 in
lemma mapper_isbn_lookup (prefs : GoodreadsPrefs)
    (fixTitle : Option (List Char) → Option (List Char))
    (fixAuthors : List (Option (List Char)) → List (Option (List Char)))
    (book : BookView) :
    lookupId (_GoodreadsBook_to_Metadata prefs fixTitle fixAuthors book).identifiers "isbn" =
      (if pyTruthy book.isbn && !prefs.NEVER_REPLACE_ISBN then
        match book.isbn with
        | some ib =>
          if ib.length = 10 then
            match convert ib with
            | none => none
            | some c =>
              if pyTruthy (check_isbn13 c) then some ((check_isbn13 c).getD []) else none
          else if pyTruthy (check_isbn13 ib) then some ((check_isbn13 ib).getD []) else none
        | none => none
      else none) := by
  have hg : lookupId (set_identifier [] "goodreads" book.id) "isbn" = none := by
    rw [lookupId_set_other (by decide)]
    rfl
  have ha : ∀ v, lookupId (set_identifier (set_identifier [] "goodreads" book.id)
      "amazon" v) "isbn" = none := fun v => by
    rw [lookupId_set_other (by decide)]
    exact hg
  have hclean : ∀ m, (clean_downloaded_metadata fixTitle fixAuthors m).identifiers =
      m.identifiers := fun m => rfl
  have hc1 : (prefs.NEVER_REPLACE_ISBN &&
      pyTruthy (lookupId (set_identifier [] "goodreads" book.id) "isbn")) = false := by
    rw [hg]
    simp [pyTruthy]
  simp only [_GoodreadsBook_to_Metadata]
  rw [hclean, copyBookFields_identifiers]
  simp only [hc1, Bool.false_eq_true, if_false]
  cases hbi : book.isbn with
  | none =>
    simp only [pyTruthy, Bool.false_and, Bool.false_eq_true, if_false]
    split_ifs <;> simp [ha, hg]
  | some ib =>
    by_cases hc3 : (pyTruthy (some ib) && !prefs.NEVER_REPLACE_ISBN) = true
    · simp only [hc3, if_true]
      by_cases hlen : ib.length = 10
      · rw [if_pos hlen, if_pos hlen]
        cases hcv : convert ib with
        | none => split_ifs <;> simp [ha, hg]
        | some c => split_ifs <;> simp_all [ha, hg, lookupId_set_self]
      · rw [if_neg hlen, if_neg hlen]
        split_ifs <;> simp_all [ha, hg, lookupId_set_self]
    · rw [Bool.not_eq_true] at hc3
      simp only [hc3, Bool.false_eq_true, if_false]
      split_ifs <;> simp [ha, hg]

/-! ## Claim C8 -/

/-- C8: when the NEVER_REPLACE_ISBN policy flag denies replacement, the mapped
output metadata's isbn identifier is blank (absent) — never the ISBN found in
the Book Record; and an isbn identifier appears in the output at all only when
the flag permits it, carrying a value that passed the ISBN-13 validity check
(after conversion to 13-digit form when the record's ISBN has 10 digits). -/
theorem mapper_never_replace_isbn (prefs : GoodreadsPrefs)
    (fixTitle : Option (List Char) → Option (List Char))
    (fixAuthors : List (Option (List Char)) → List (Option (List Char)))
    (book : BookView) :
    (prefs.NEVER_REPLACE_ISBN = true →
      lookupId (_GoodreadsBook_to_Metadata prefs fixTitle fixAuthors book).identifiers
        "isbn" = none) ∧
    (∀ v, lookupId (_GoodreadsBook_to_Metadata prefs fixTitle fixAuthors book).identifiers
        "isbn" = some v →
      prefs.NEVER_REPLACE_ISBN = false ∧ isI13 v = some true) := by
  have hmain := mapper_isbn_lookup prefs fixTitle fixAuthors book
  have hcommit : ∀ x v : List Char,
      (if pyTruthy (check_isbn13 x) then some ((check_isbn13 x).getD []) else none) =
        some v → isI13 v = some true := by
    intro x v h
    by_cases hc : pyTruthy (check_isbn13 x) = true
    · rw [if_pos hc] at h
      cases hcs : check_isbn13 x with
      | none => rw [hcs] at hc; simp [pyTruthy] at hc
      | some y =>
        rw [hcs] at h
        simp at h
        rw [← h]
        exact check_isbn13_some hcs
    · rw [if_neg hc] at h
      cases h
  constructor
  · intro hnr
    rw [hmain, hnr]
    simp
  · intro v hv
    rw [hmain] at hv
    by_cases hnr : prefs.NEVER_REPLACE_ISBN = true
    · rw [hnr] at hv
      simp at hv
    · rw [Bool.not_eq_true] at hnr
      refine ⟨hnr, ?_⟩
      rw [hnr] at hv
      simp only [Bool.not_false, Bool.and_true] at hv
      cases hbi : book.isbn with
      | none => simp [hbi, pyTruthy] at hv
      | some ib =>
        simp only [hbi] at hv
        by_cases htr : pyTruthy (some ib) = true
        · simp only [htr, if_true] at hv
          by_cases hlen : ib.length = 10
          · rw [if_pos hlen] at hv
            cases hcv : convert ib with
            | none => simp [hcv] at hv
            | some c =>
              simp only [hcv] at hv
              exact hcommit c v hv
          · rw [if_neg hlen] at hv
            exact hcommit ib v hv
        · rw [Bool.not_eq_true] at htr
          simp [htr] at hv

/-- A concrete Book Record view carrying the 10-digit ISBN "0306406152". -/
def bookW : BookView :=
  { title := some "61 Hours".data, authors := [some "Lee Child".data],
    id := some "6977769".data, asin := none, isbn := some "0306406152".data,
    image_url := none, publisher := none, pubdate := none, comments := none,
    tags := [], series := none, series_index := none, average_rating := none }

/-- Witness for C8: with NEVER_REPLACE_ISBN set and a record ISBN present, the
mapped metadata's isbn identifier is blank. -/
theorem mapper_never_replace_isbn_witness :
    lookupId (_GoodreadsBook_to_Metadata ⟨true, true⟩ id id bookW).identifiers "isbn" =
      none :=
  (mapper_never_replace_isbn ⟨true, true⟩ id id bookW).1 rfl
